import Mathlib

/-
Verification of the go-seele-one-shard core against its specification.

The Go sources embedded here:
  seele/seeleprotocol.go  (packages seele, core genesis part, miner)
  seele/seeleservice.go   (package seele)
Pure functions become Lean functions; stateful Go code becomes explicit
state passing; Go goroutine loops become folds over the list of events
they would receive; machine integers are Nat with explicit mod 2^64
where overflow matters; fallible code returns Option or an error sum.
External collaborators (leveldb store, core.TransactionPool,
core.DebtPool, core.Blockchain, the downloader, crypto hashing and the
serializer) are modelled as oracles, recorded effects, or injective
encodings, as noted at each definition.
-/

namespace GenesisM

/-- Block hashes, modelled as natural numbers; 0 plays the role of
common.EmptyHash. -/
abbrev Hash := Nat

def EmptyHash : Hash := 0

def EmptyAddress : Nat := 0

/-- types.MerkleRootHash(nil) is an external constant; modelled as a fixed
value. -/
def merkleRootHashNil : Nat := 0

def genesisBlockHeight : Nat := 0

/-- types.BlockHeader, with the fields used by the genesis code.
Difficulty and CreateTimestamp are big.Int in Go, modelled as Int. -/
structure BlockHeader where
  PreviousBlockHash : Hash
  Creator : Nat
  TxHash : Hash
  Difficulty : Int
  Height : Nat
  CreateTimestamp : Int
  Nonce : Nat
  ExtraData : List Nat
deriving DecidableEq, Repr

/-- types.Block: header plus transaction list (transactions are kept
abstract as hashes; the genesis code never reads them). -/
structure Block where
  Header : BlockHeader
  Transactions : List Nat
deriving DecidableEq, Repr

/-- common.SerializePanic applied to genesisExtraData{shard}: the
serializer is external; it is modelled as an injective encoding of the
shard number into a byte list. -/
def serializeExtraData (shard : Nat) : List Nat := [shard]

/-- common.Deserialize into genesisExtraData: partial inverse of the
encoding above; any other byte list fails to deserialize. -/
def deserializeExtraData : List Nat → Option Nat
  | [s] => some s
  | _ => none

def encodeInt (i : Int) : Nat := Nat.pair i.natAbs (if i < 0 then 1 else 0)

def encodeList : List Nat → Nat
  | [] => 0
  | x :: t => Nat.pair x (encodeList t) + 1

/-- BlockHeader.Hash(): the external hash over all header fields,
modelled as an injective pairing of the fields. -/
def headerHash (h : BlockHeader) : Hash :=
  Nat.pair h.PreviousBlockHash (Nat.pair h.Creator (Nat.pair h.TxHash
    (Nat.pair (encodeInt h.Difficulty) (Nat.pair h.Height
      (Nat.pair (encodeInt h.CreateTimestamp)
        (Nat.pair h.Nonce (encodeList h.ExtraData)))))))

/-- GenesisInfo from seeleprotocol.go: accounts map, initial difficulty,
shard number. -/
structure GenesisInfo where
  Accounts : List (Nat × Int)
  Difficult : Int
  ShardNumber : Nat
deriving DecidableEq, Repr

/-- Genesis: the genesis header together with its configuration. -/
structure Genesis where
  header : BlockHeader
  Info : GenesisInfo
deriving DecidableEq, Repr

/-- GetGenesis from seeleprotocol.go: if info.Difficult <= 0 it is reset
to 1; the header carries the serialized shard number in ExtraData. -/
def GetGenesis (info : GenesisInfo) : Genesis :=
  let info := if info.Difficult ≤ 0 then { info with Difficult := 1 } else info
  { header :=
      { PreviousBlockHash := EmptyHash
        Creator := EmptyAddress
        TxHash := merkleRootHashNil
        Difficulty := info.Difficult
        Height := genesisBlockHeight
        CreateTimestamp := 0
        Nonce := 1
        ExtraData := serializeExtraData info.ShardNumber }
    Info := info }

/-- The block formed from a Genesis header (the body of a genesis block
is empty; genesis.store persists only the header). -/
def genesisBlock (g : Genesis) : Block :=
  { Header := g.header, Transactions := [] }

/-- getGenesisExtraData from seeleprotocol.go: fails when the block is
not at the genesis height or when ExtraData does not deserialize;
returns the stored shard number. -/
def getGenesisExtraData (b : Block) : Option Nat :=
  if b.Header.Height ≠ genesisBlockHeight then none
  else deserializeExtraData b.Header.ExtraData

/-- store.BlockchainStore, the external persistent store, modelled by
its observable contents: height-to-hash index, block bodies by hash,
headers by hash, total difficulties by hash, and the head marker. -/
structure BlockchainStore where
  heightToHash : List (Nat × Hash)
  blocks : List (Hash × Block)
  headers : List (Hash × BlockHeader)
  tds : List (Hash × Int)
  headHash : Option Hash
deriving DecidableEq, Repr

def getBlockHash (s : BlockchainStore) (height : Nat) : Option Hash :=
  s.heightToHash.lookup height

def getBlock (s : BlockchainStore) (h : Hash) : Option Block :=
  s.blocks.lookup h

/-- bcStore.PutBlockHeader(hash, header, td, isHead): records the header,
the height index, the total difficulty, and moves the head marker. -/
def putBlockHeader (s : BlockchainStore) (h : Hash) (hd : BlockHeader)
    (td : Int) (isHead : Bool) : BlockchainStore :=
  { s with
    heightToHash := (hd.Height, h) :: s.heightToHash
    headers := (h, hd) :: s.headers
    tds := (h, td) :: s.tds
    headHash := if isHead then some h else s.headHash }

/-- The error results of Genesis.InitializeAndValidate. -/
inductive GenesisErr
  | failedToGetGenesisBlock
  | failedToGetExtraData
  | shardMismatch
  | genesisHashMismatch
deriving DecidableEq, Repr

/-- genesis.store: atomically writes the genesis header as the head. -/
def genesisStore (g : Genesis) (s : BlockchainStore) : BlockchainStore :=
  putBlockHeader s (headerHash g.header) g.header g.header.Difficulty true

/-- Genesis.InitializeAndValidate from seeleprotocol.go.  A missing
height-0 entry (leveldb ErrNotFound) triggers the write path; otherwise
the stored genesis is fetched, its extra data decoded, the shard number
compared, and finally the header hash compared. -/
def InitializeAndValidate (g : Genesis) (s : BlockchainStore) :
    Option GenesisErr × BlockchainStore :=
  match getBlockHash s genesisBlockHeight with
  | none => (none, genesisStore g s)
  | some storedGenesisHash =>
    match getBlock s storedGenesisHash with
    | none => (some GenesisErr.failedToGetGenesisBlock, s)
    | some storedGenesis =>
      match getGenesisExtraData storedGenesis with
      | none => (some GenesisErr.failedToGetExtraData, s)
      | some shard =>
        if shard ≠ g.Info.ShardNumber then
          (some GenesisErr.shardMismatch, s)
        else if ¬ (headerHash g.header = storedGenesisHash) then
          (some GenesisErr.genesisHashMismatch, s)
        else
          (none, s)

end GenesisM

namespace ProtoM

/-- Message codes from seeleprotocol.go (fixed wire assignments). -/
def transactionHashMsgCode : Nat := 0

def transactionRequestMsgCode : Nat := 1

def transactionsMsgCode : Nat := 2

def blockHashMsgCode : Nat := 3

def blockRequestMsgCode : Nat := 4

def blockMsgCode : Nat := 5

def statusDataMsgCode : Nat := 6

def statusChainHeadMsgCode : Nat := 7

def debtMsgCode : Nat := 13

/-- Modelled from the spec: the downloader package (not under src/)
reserves the codes at and above 8, in the order GetHeaders, Headers,
GetBlocks, BlocksPre, Blocks (spec section 4.3); the exact values play
no role in the claims. -/
def downloaderGetBlockHeadersMsg : Nat := 8

def downloaderBlockHeadersMsg : Nat := 9

def downloaderGetBlocksMsg : Nat := 10

def downloaderBlocksPreMsg : Nat := 11

def downloaderBlocksMsg : Nat := 12

/-- Modelled from the spec: downloader.MaxMessageLength, the wire size
budget of a blocks response; the value plays no role in the claims. -/
def MaxMessageLength : Nat := 8 * 1024 * 1024

def EmptyHash : Nat := 0

/-- common.Address: the shard derivation addr.Shard() is external, so an
address is modelled as its shard together with an identifier. -/
structure Address where
  shard : Nat
  ident : Nat
deriving DecidableEq, Repr

/-- types.Transaction, with the fields the message loop reads. -/
structure Transaction where
  hash : Nat
  fromAddr : Address
deriving DecidableEq, Repr

structure TransactionMsg where
  Tx : Transaction
  ChainNum : Nat
deriving DecidableEq, Repr

structure TransactionHashMsg where
  TxHash : Nat
  ChainNum : Nat
deriving DecidableEq, Repr

structure BlockHashMsg where
  BlockHash : Nat
  ChainNum : Nat
deriving DecidableEq, Repr

/-- types.Block as the message loop observes it: its header hash, its
height, its shard (block.GetShardNumber()), and its serialized size
(len of common.SerializePanic). -/
structure PBlock where
  headerHash : Nat
  height : Nat
  shard : Nat
  size : Nat
deriving DecidableEq, Repr

structure BlockMsg where
  Block : PBlock
  ChainNum : Nat
deriving DecidableEq, Repr

/-- types.Debt, with the fields the message loop reads. -/
structure Debt where
  hash : Nat
  shard : Nat
  chainNum : Nat
deriving DecidableEq, Repr

structure ChainHeadStatus where
  TD : Int
  CurrentBlock : Nat
  ChainNum : Nat
deriving DecidableEq, Repr

/-- types.BlockHeader as the downloader query branches observe it. -/
structure PHeader where
  hash : Nat
  height : Nat
deriving DecidableEq, Repr

structure BlockHeadersQuery where
  Magic : Nat
  Hash : Nat
  Number : Nat
  Amount : Nat
  Reverse : Bool
  ChainNum : Nat
deriving DecidableEq, Repr

structure BlocksQuery where
  Magic : Nat
  Hash : Nat
  Number : Nat
  Amount : Nat
  ChainNum : Nat
deriving DecidableEq, Repr

/-- A wire payload; common.Deserialize into a given record type succeeds
exactly when the payload holds that record (the raw constructor stands
for malformed or downloader-internal payloads). -/
inductive Payload
  | txHash (m : TransactionHashMsg)
  | txs (l : List TransactionMsg)
  | blockHash (m : BlockHashMsg)
  | block (m : BlockMsg)
  | debts (l : List Debt)
  | headStatus (st : ChainHeadStatus)
  | headersQuery (q : BlockHeadersQuery)
  | blocksQuery (q : BlocksQuery)
  | raw (n : Nat)
deriving DecidableEq, Repr

/-- p2p.Message: a code with a payload. -/
structure HMsg where
  Code : Nat
  Payload : Payload
deriving DecidableEq, Repr

/-- The per-peer state the message loop mutates: the remote shard and
the known-hash LRU sets (modelled as lists) plus the per-chain head
records set by statusChainHeadMsgCode. -/
structure Peer where
  shard : Nat
  knownTxs : List Nat
  knownBlocks : List Nat
  knownDebts : List Nat
  heads : List (Nat × (Nat × Int))
deriving DecidableEq, Repr

/-- The external collaborators the message loop queries (transaction
pools and the per-chain stores), modelled as read oracles. -/
structure Env where
  txPoolGetTransaction : Nat → Nat → Option Transaction
  storeGetBlock : Nat → Nat → Option PBlock
  storeGetBlockHash : Nat → Nat → Option Nat
  storeGetBlockHeader : Nat → Nat → Option PHeader
  currentBlockHeight : Nat → Nat

/-- The externally visible actions one message can cause: outbound
sends, pool and chain mutations, goroutine spawns, downloader delivery,
and the sync-channel signal.  Pools and chains are external, so a state
change to them is exactly the presence of the corresponding effect. -/
inductive Effect
  | sendTransactionRequest (m : TransactionHashMsg)
  | sendTransaction (tx : Transaction) (chainNum : Nat)
  | spawnSendDifferentShardTx (m : TransactionMsg) (shard : Nat)
  | txPoolAddTransaction (chainNum : Nat) (tx : Transaction)
  | sendBlockRequest (m : BlockHashMsg)
  | sendBlock (m : BlockMsg)
  | chainWriteBlock (chainNum : Nat) (b : PBlock)
  | debtPoolAdd (chainNum : Nat) (d : Debt)
  | spawnPropagateDebt (l : List Debt)
  | sendBlockHeaders (magic : Nat) (hs : List PHeader) (chainNum : Nat)
  | sendBlocks (magic : Nat) (bs : List PBlock) (chainNum : Nat)
  | deliverDownloaderMsg (code : Nat)
  | signalSync
deriving DecidableEq, Repr

/-- The body of the transactionsMsgCode for-loop: every transaction is
added to the known set; a foreign-shard transaction is forwarded in a
new goroutine, a local one is offered to the transaction pool. -/
def handleTxList (localShard : Nat) (peer : Peer) :
    List TransactionMsg → Peer × List Effect
  | [] => (peer, [])
  | tm :: rest =>
    let peer := { peer with knownTxs := tm.Tx.hash :: peer.knownTxs }
    let eff :=
      if tm.Tx.fromAddr.shard ≠ localShard then
        Effect.spawnSendDifferentShardTx tm tm.Tx.fromAddr.shard
      else
        Effect.txPoolAddTransaction tm.ChainNum tm.Tx
    let r := handleTxList localShard peer rest
    (r.1, eff :: r.2)

/-- The body of the debtMsgCode for-loop: every debt is added to the
known set and to the debt pool of its chain. -/
def handleDebtList (peer : Peer) : List Debt → Peer × List Effect
  | [] => (peer, [])
  | d :: rest =>
    let peer := { peer with knownDebts := d.hash :: peer.knownDebts }
    let r := handleDebtList peer rest
    (r.1, Effect.debtPoolAdd d.chainNum d :: r.2)

/-- The downloader.GetBlockHeadersMsg collection loop, iterating cnt
from 0 while cnt < Amount; reverse queries walk the height down with
uint64 wraparound, and any height above the current head or any store
miss ends the collection. -/
def collectHeaders (env : Env) (chainNum : Nat) (reverse : Bool)
    (orgNum maxHeight : Nat) : Nat → Nat → List PHeader
  | _, 0 => []
  | cnt, remaining + 1 =>
    let curNum :=
      if reverse then (orgNum + (2 ^ 64 - cnt % 2 ^ 64)) % 2 ^ 64
      else (orgNum + cnt) % 2 ^ 64
    if curNum > maxHeight then []
    else
      match env.storeGetBlockHash chainNum curNum with
      | none => []
      | some h =>
        match env.storeGetBlockHeader chainNum h with
        | none => []
        | some hd => hd :: collectHeaders env chainNum reverse orgNum maxHeight (cnt + 1) remaining

/-- The downloader.GetBlocksMsg collection loop with its serialized-size
budget. -/
def collectBlocks (env : Env) (chainNum : Nat) (orgNum : Nat) :
    Nat → Nat → Nat → List PBlock
  | _, _, 0 => []
  | cnt, totalLen, remaining + 1 =>
    let curNum := orgNum + cnt
    match env.storeGetBlockHash chainNum curNum with
    | none => []
    | some h =>
      match env.storeGetBlock chainNum h with
      | none => []
      | some b =>
        if totalLen > 0 ∧ totalLen + b.size > MaxMessageLength then []
        else b :: collectBlocks env chainNum orgNum (cnt + 1) (totalLen + b.size) remaining

/-- The switch of handleMsg in seeleprotocol.go, one message at a time.
Deserialization failure (payload shape mismatch) skips the message, as
the Go code logs and continues; send errors only end the loop and are
not modelled.  Returns the updated peer state and the effect trace. -/
def dispatchMsg (env : Env) (localShard : Nat) (peer : Peer) (msg : HMsg) :
    Peer × List Effect :=
  if msg.Code = transactionHashMsgCode then
    match msg.Payload with
    | Payload.txHash m =>
      if peer.knownTxs.contains m.TxHash then (peer, [])
      else ({ peer with knownTxs := m.TxHash :: peer.knownTxs },
            [Effect.sendTransactionRequest m])
    | _ => (peer, [])
  else if msg.Code = transactionRequestMsgCode then
    match msg.Payload with
    | Payload.txHash m =>
      match env.txPoolGetTransaction m.ChainNum m.TxHash with
      | none => (peer, [])
      | some tx => (peer, [Effect.sendTransaction tx m.ChainNum])
    | _ => (peer, [])
  else if msg.Code = transactionsMsgCode then
    match msg.Payload with
    | Payload.txs l => handleTxList localShard peer l
    | _ => (peer, [])
  else if msg.Code = blockHashMsgCode then
    match msg.Payload with
    | Payload.blockHash m =>
      if peer.knownBlocks.contains m.BlockHash then (peer, [])
      else ({ peer with knownBlocks := m.BlockHash :: peer.knownBlocks },
            [Effect.sendBlockRequest m])
    | _ => (peer, [])
  else if msg.Code = blockRequestMsgCode then
    match msg.Payload with
    | Payload.blockHash m =>
      match env.storeGetBlock m.ChainNum m.BlockHash with
      | none => (peer, [])
      | some b => (peer, [Effect.sendBlock { Block := b, ChainNum := m.ChainNum }])
    | _ => (peer, [])
  else if msg.Code = blockMsgCode then
    match msg.Payload with
    | Payload.block m =>
      let peer := { peer with knownBlocks := m.Block.headerHash :: peer.knownBlocks }
      if m.Block.shard = localShard then
        (peer, [Effect.chainWriteBlock m.ChainNum m.Block])
      else (peer, [])
    | _ => (peer, [])
  else if msg.Code = debtMsgCode then
    match msg.Payload with
    | Payload.debts l =>
      let r := handleDebtList peer l
      (r.1, r.2 ++ [Effect.spawnPropagateDebt l])
    | _ => (peer, [])
  else if msg.Code = downloaderGetBlockHeadersMsg then
    match msg.Payload with
    | Payload.headersQuery q =>
      let orgNum? :=
        if q.Hash ≠ EmptyHash then
          (env.storeGetBlockHeader q.ChainNum q.Hash).map PHeader.height
        else some q.Number
      match orgNum? with
      | none => (peer, [])
      | some orgNum =>
        let maxHeight := env.currentBlockHeight q.ChainNum
        let hs := collectHeaders env q.ChainNum q.Reverse orgNum maxHeight 0 q.Amount
        (peer, [Effect.sendBlockHeaders q.Magic hs q.ChainNum])
    | _ => (peer, [])
  else if msg.Code = downloaderGetBlocksMsg then
    match msg.Payload with
    | Payload.blocksQuery q =>
      let orgNum? :=
        if q.Hash ≠ EmptyHash then
          (env.storeGetBlockHeader q.ChainNum q.Hash).map PHeader.height
        else some q.Number
      match orgNum? with
      | none => (peer, [])
      | some orgNum =>
        let bs := collectBlocks env q.ChainNum orgNum 0 0 q.Amount
        (peer, [Effect.sendBlocks q.Magic bs q.ChainNum])
    | _ => (peer, [])
  else if msg.Code = downloaderBlockHeadersMsg ∨ msg.Code = downloaderBlocksPreMsg
      ∨ msg.Code = downloaderBlocksMsg then
    (peer, [Effect.deliverDownloaderMsg msg.Code])
  else if msg.Code = statusChainHeadMsgCode then
    match msg.Payload with
    | Payload.headStatus st =>
      ({ peer with heads :=
          (st.ChainNum, (st.CurrentBlock, st.TD))
            :: peer.heads.filter (fun p => p.1 != st.ChainNum) },
       [Effect.signalSync])
    | _ => (peer, [])
  else (peer, [])

/-- One iteration of the handleMsg loop: the cross-shard filter of
seeleprotocol.go runs before the switch — a peer on a different shard
has every message other than transactionsMsgCode and debtMsgCode
dropped with continue. -/
def handleMsgStep (env : Env) (localShard : Nat) (peer : Peer) (msg : HMsg) :
    Peer × List Effect :=
  if peer.shard ≠ localShard ∧ msg.Code ≠ transactionsMsgCode
      ∧ msg.Code ≠ debtMsgCode then
    (peer, [])
  else dispatchMsg env localShard peer msg

end ProtoM

namespace MinerM

/-- Constants from the miner package. -/
def numOfChains : Nat := 3

def StartHeightOfGetMiningKeyFromChain : Nat := 4

def longDist : Nat := 3

def shortDist : Nat := 1

/-- The miner flags and channels.  mining, canStart, stopped and
isFirstDownloader are int32 flags only ever holding 0 or 1 and are
modelled as Bool (true = 1); stopChanOpen records whether a live
stopChan exists (stopChan non-nil and not closed). -/
structure MinerState where
  mining : Bool
  canStart : Bool
  stopped : Bool
  isFirstDownloader : Bool
  stopChanOpen : Bool
deriving DecidableEq, Repr

/-- NewMiner: canStart = 1, stopped = 0, isFirstDownloader = 1. -/
def minerInit : MinerState :=
  { mining := false
    canStart := true
    stopped := false
    isFirstDownloader := true
    stopChanOpen := false }

/-- Miner.stopMining: compare-and-swap mining from 1 to 0; on success
the stopChan is closed and the worker wait group is awaited. -/
def stopMining (s : MinerState) : MinerState :=
  if s.mining = false then s
  else { s with mining := false, stopChanOpen := false }

/-- The results of Miner.Start. -/
inductive StartResult
  | ok
  | errMinerIsRunning
  | errNodeIsSyncing
  | errMiningLoopFailed
deriving DecidableEq, Repr

/-- Miner.Start.  loopOk stands for the outcome of NewMiningLoop, which
depends on external chain state; on failure the mining flag is rolled
back and the error surfaced. -/
def minerStart (s : MinerState) (loopOk : Bool) : StartResult × MinerState :=
  if s.mining then (StartResult.errMinerIsRunning, s)
  else if s.canStart = false then (StartResult.errNodeIsSyncing, s)
  else
    let s := { s with mining := true, stopChanOpen := true }
    if loopOk = false then
      (StartResult.errMiningLoopFailed, { s with mining := false })
    else
      (StartResult.ok, { s with stopped := false })

/-- The downloader lifecycle events fired on the event bus. -/
inductive DLEvent
  | start
  | done
  | failed
deriving DecidableEq, Repr

/-- Miner.downloaderEventCallback: every event is ignored once
isFirstDownloader has been cleared; a start event clears canStart and
stops an in-progress miner; done and failed set canStart, clear
isFirstDownloader and restart the miner unless administratively
stopped. -/
def downloaderEventCallback (s : MinerState) (e : DLEvent) (loopOk : Bool) :
    MinerState :=
  if s.isFirstDownloader = false then s
  else
    match e with
    | DLEvent.start =>
      let s := { s with canStart := false }
      if s.mining then stopMining s else s
    | DLEvent.done | DLEvent.failed =>
      let s := { s with canStart := true, isFirstDownloader := false }
      if s.stopped = false then (minerStart s loopOk).2 else s

/-- The miner state after the very first downloader round completes
successfully (one done event received from minerInit); reached in the
code whenever the synchroniser finds no chain needing download and
fires DownloaderDoneEvent. -/
def minerAfterFirstDone : MinerState :=
  downloaderEventCallback minerInit DLEvent.done true

/-- The per-chain input of getMiningKey: the head height and, per
height, the transaction hashes of the block body (read through
GetStore().GetBlockByHeight). -/
structure ChainView where
  headHeight : Nat
  txsAt : Nat → List Nat

/-- The height sampled by getMiningKey for one chain:
uint64(rand.Intn(longDist - shortDist)) + blockHeight - longDist, where
r < longDist - shortDist is the value drawn by rand.Intn. -/
def miningKeyHeight (blockHeight r : Nat) : Nat :=
  r + blockHeight - longDist

/-- The body of the getMiningKey loop for one chain whose head height
exceeds the threshold: sample a height, read the block there, and pick
the transaction at the sampled index r2 (r2 = rand.Intn(len)). -/
def getMiningKeyChain (ch : ChainView) (r1 r2 : Nat) : Option (Nat × Nat) :=
  if ch.headHeight > StartHeightOfGetMiningKeyFromChain then
    let hgt := miningKeyHeight ch.headHeight r1
    some (hgt, (ch.txsAt hgt).getD r2 0)
  else none

/-- uint64 decrement with wraparound, for the seed-1 comparison. -/
def sub1U64 (x : Nat) : Nat := (x + (2 ^ 64 - 1)) % 2 ^ 64

/-- The outcomes of the StartMiningForKey nonce loop (no stop signal is
delivered, matching the hypotheses of the claim). -/
inductive KeyMineOutcome
  | foundNonce (nonce : Nat)
  | outage
  | fuelExhausted
deriving DecidableEq, Repr

/-- The nonce loop of Miner.StartMiningForKey.  found abstracts the
test crypto.MustHash(dataPack with this nonce) <= target; the fuel
argument only bounds the number of iterations (the Go loop has none)
and the claims supply enough of it.  Returns the outcome and the list
of nonces tested, in order.  After an unsuccessful test the code first
wraps nonce from max to min, then compares against seed-1 and exits
with an outage on equality, and only then increments. -/
def StartMiningForKeyAux (found : Nat → Bool) (tmin tmax seed : Nat) :
    Nat → Nat → List Nat → KeyMineOutcome × List Nat
  | 0, _, visited => (KeyMineOutcome.fuelExhausted, visited)
  | fuel + 1, nonce, visited =>
    let visited := visited ++ [nonce]
    if found nonce then (KeyMineOutcome.foundNonce nonce, visited)
    else
      let nonce := if nonce = tmax then tmin else nonce
      if nonce = sub1U64 seed then (KeyMineOutcome.outage, visited)
      else StartMiningForKeyAux found tmin tmax seed fuel ((nonce + 1) % 2 ^ 64) visited

/-- Miner.StartMiningForKey: the loop starts at nonce = seed. -/
def StartMiningForKey (found : Nat → Bool) (tmin tmax seed fuel : Nat) :
    KeyMineOutcome × List Nat :=
  StartMiningForKeyAux found tmin tmax seed fuel seed []

end MinerM

namespace SyncM

/-- One entry of the slice returned by peerSet.bestPeer: the chain it is
best for and the total difficulty that peer reports for the chain
(HeadByChain). -/
structure BestPeerForEachChain where
  chainNum : Nat
  peerTD : Int
deriving DecidableEq, Repr

/-- The externally visible actions of one synchronisation round, tagged
with the chain number the loop iteration used. -/
inductive SyncAction
  | fireStart (c : Nat)
  | download (c : Nat)
  | broadcast (c : Nat)
  | fireFailed (c : Nat)
  | fireDone
deriving DecidableEq, Repr

/-- The for-loop of SeeleProtocol.synchronise.  i is the loop index
(sp.chain[i] supplies the local head total difficulty — localTD i = none
models a GetBlockTotalDifficulty error, which returns from the whole
function); dlOk c is the outcome of downloader.Synchronise for chain c.
A peer total difficulty not above the local one skips the chain; a
failed download fires DownloaderFailedEvent and returns; the loop end
fires DownloaderDoneEvent. -/
def syncLoop (localTD : Nat → Option Int) (dlOk : Nat → Bool) :
    Nat → List (Option BestPeerForEachChain) → List SyncAction
  | _, [] => [SyncAction.fireDone]
  | i, none :: rest => syncLoop localTD dlOk (i + 1) rest
  | i, some bp :: rest =>
    match localTD i with
    | none => []
    | some ltd =>
      if bp.peerTD ≤ ltd then syncLoop localTD dlOk (i + 1) rest
      else
        SyncAction.fireStart bp.chainNum ::
        SyncAction.download bp.chainNum ::
        (if dlOk bp.chainNum then
           SyncAction.broadcast bp.chainNum :: syncLoop localTD dlOk (i + 1) rest
         else [SyncAction.fireFailed bp.chainNum])

/-- SeeleProtocol.synchronise: a nil bestPeers slice returns at once
(firing nothing); otherwise the loop runs from index 0. -/
def synchronise (localTD : Nat → Option Int) (dlOk : Nat → Bool) :
    Option (List (Option BestPeerForEachChain)) → List SyncAction
  | none => []
  | some bps => syncLoop localTD dlOk 0 bps

end SyncM

namespace MonitorM

abbrev Hash := Nat

def EmptyHash : Hash := 0

/-- event.ChainHeaderChangedMsg from the event package. -/
structure ChainHeaderChangedMsg where
  HeaderHash : Hash
  ChainNum : Nat
deriving DecidableEq, Repr

/-- SeeleService.chainHeaderChanged: an empty new header is dropped;
every other event is sent to the channel of its chain.  This computes,
for chain c, the list of header hashes delivered on channel c, in
firing order. -/
def chainHeaderChangedDeliver (c : Nat) (msgs : List ChainHeaderChangedMsg) :
    List Hash :=
  (msgs.filter (fun m => (m.HeaderHash != EmptyHash) && (m.ChainNum == c))).map
    ChainHeaderChangedMsg.HeaderHash

/-- The observable state of one MonitorChainHeaderChange goroutine:
lastHeaders for its chain, the (newHeader, previousHeader) pairs handed
to txPools and debtPools (the pools are external; handled records the
calls, in order), and whether the goroutine is still running. -/
structure MonitorState where
  lastHeader : Hash
  handled : List (Hash × Hash)
  alive : Bool
deriving DecidableEq, Repr

/-- One iteration of the MonitorChainHeaderChange select loop.  A dead
goroutine receives nothing.  When the recorded last header is empty the
code records the new one and returns, ending the goroutine; otherwise
both pools receive HandleChainHeaderChanged(newHeader, lastHeader) and
the record is updated. -/
def monitorStep (s : MonitorState) (newHeader : Hash) : MonitorState :=
  if s.alive = false then s
  else if s.lastHeader = EmptyHash then
    { s with lastHeader := newHeader, alive := false }
  else
    { lastHeader := newHeader
      handled := s.handled ++ [(newHeader, s.lastHeader)]
      alive := true }

/-- MonitorChainHeaderChange, run over a finite prefix of the events the
channel delivers; init is lastHeaders at goroutine start (set by
initPool from GetHeadBlockHash). -/
def MonitorChainHeaderChange (init : Hash) (events : List Hash) : MonitorState :=
  events.foldl monitorStep { lastHeader := init, handled := [], alive := true }

/-- The expected pool calls: each event paired with its predecessor. -/
def headerPairs (last : Hash) : List Hash → List (Hash × Hash)
  | [] => []
  | h :: t => (h, last) :: headerPairs h t

end MonitorM

namespace ServiceM

/-- The number of chains of the seele package. -/
def NumOfChains : Nat := 3

/-- The stop-relevant state of a SeeleService: whether the protocol quit
and sync channels have been closed, and how many times each chain
database and the account state database have been closed.  Closing a Go
channel twice panics; a panic is modelled as the result none. -/
structure ServiceState where
  quitChClosed : Bool
  syncChClosed : Bool
  chainDBCloses : List Nat
  accountDBCloses : Nat
deriving DecidableEq, Repr

/-- A freshly started service: channels open, nothing closed yet. -/
def serviceInit : ServiceState :=
  { quitChClosed := false
    syncChClosed := false
    chainDBCloses := List.replicate NumOfChains 0
    accountDBCloses := 0 }

/-- SeeleProtocol.Stop: removes the event listeners (no observable
state here), then closes quitCh and syncCh in that order; close of an
already-closed channel panics (none). -/
def protocolStop (s : ServiceState) : Option ServiceState :=
  if s.quitChClosed then none
  else
    let s := { s with quitChClosed := true }
    if s.syncChClosed then none
    else some { s with syncChClosed := true }

/-- SeeleService.Stop: stops the protocol, then closes every chain
database and the account state database.  A panic inside
seeleProtocol.Stop propagates before any database close runs. -/
def serviceStop (s : ServiceState) : Option ServiceState :=
  match protocolStop s with
  | none => none
  | some s =>
    some { s with
            chainDBCloses := s.chainDBCloses.map (· + 1)
            accountDBCloses := s.accountDBCloses + 1 }

end ServiceM

namespace GenesisM

lemma GetGenesis_Info_Shard (info : GenesisInfo) :
    (GetGenesis info).Info.ShardNumber = info.ShardNumber := by
  simp only [GetGenesis]
  split <;> rfl

lemma GetGenesis_header_height (info : GenesisInfo) :
    (GetGenesis info).header.Height = genesisBlockHeight := rfl

lemma GetGenesis_header_extra (info : GenesisInfo) :
    (GetGenesis info).header.ExtraData = serializeExtraData info.ShardNumber := by
  simp only [GetGenesis]
  split <;> rfl

/-- Claim C1: Genesis initialization is validating and non-destructive.
On a store whose stored height-0 block carries a shard number different
from the configured one, InitializeAndValidate returns the shard
mismatch error and leaves the store unchanged; on a store whose stored
genesis is exactly the configured one it returns no error and writes
nothing; on a store with no block at height 0 it writes exactly the
configured genesis header and nothing else. -/
theorem c1_initialize_and_validate (info : GenesisInfo) (s : BlockchainStore) :
    (∀ sh b sn, getBlockHash s genesisBlockHeight = some sh →
        getBlock s sh = some b →
        getGenesisExtraData b = some sn →
        sn ≠ info.ShardNumber →
        InitializeAndValidate (GetGenesis info) s = (some GenesisErr.shardMismatch, s))
  ∧ (∀ txs, getBlockHash s genesisBlockHeight
          = some (headerHash (GetGenesis info).header) →
        getBlock s (headerHash (GetGenesis info).header)
          = some { Header := (GetGenesis info).header, Transactions := txs } →
        InitializeAndValidate (GetGenesis info) s = (none, s))
  ∧ (getBlockHash s genesisBlockHeight = none →
        InitializeAndValidate (GetGenesis info) s
          = (none, putBlockHeader s (headerHash (GetGenesis info).header)
              (GetGenesis info).header (GetGenesis info).header.Difficulty true)) := by
  refine ⟨?_, ?_, ?_⟩
  · intro sh b sn h1 h2 h3 hne
    have hsn : sn ≠ (GetGenesis info).Info.ShardNumber := by
      rw [GetGenesis_Info_Shard]; exact hne
    simp only [InitializeAndValidate, h1, h2, h3]
    rw [if_pos hsn]
  · intro txs h1 h2
    have hx : getGenesisExtraData
        { Header := (GetGenesis info).header, Transactions := txs }
          = some info.ShardNumber := by
      simp only [getGenesisExtraData, GetGenesis_header_height, GetGenesis_header_extra,
        serializeExtraData, deserializeExtraData]
      simp
    simp only [InitializeAndValidate, h1, h2, hx]
    rw [if_neg (by rw [GetGenesis_Info_Shard]; simp), if_neg (by simp)]
  · intro h1
    simp only [InitializeAndValidate, h1, genesisStore]

def infoW : GenesisInfo := { Accounts := [], Difficult := 4, ShardNumber := 2 }

/-- A height-0 block whose extra data decodes to shard 7. -/
def blockShard7W : Block :=
  { Header :=
      { PreviousBlockHash := 0
        Creator := 0
        TxHash := 0
        Difficulty := 4
        Height := 0
        CreateTimestamp := 0
        Nonce := 1
        ExtraData := [7] }
    Transactions := [] }

/-- A store holding a height-0 block whose extra data decodes to shard
7, different from the configured shard 2. -/
def storeMismatchW : BlockchainStore :=
  { heightToHash := [(0, 99)]
    blocks := [(99, blockShard7W)]
    headers := []
    tds := []
    headHash := some 99 }

/-- A store holding exactly the configured genesis. -/
def storeMatchW : BlockchainStore :=
  { heightToHash := [(0, headerHash (GetGenesis infoW).header)]
    blocks := [(headerHash (GetGenesis infoW).header, genesisBlock (GetGenesis infoW))]
    headers := []
    tds := []
    headHash := some (headerHash (GetGenesis infoW).header) }

/-- A store with no block at height 0. -/
def storeEmptyW : BlockchainStore :=
  { heightToHash := [], blocks := [], headers := [], tds := [], headHash := none }

theorem c1_witness :
    InitializeAndValidate (GetGenesis infoW) storeMismatchW
      = (some GenesisErr.shardMismatch, storeMismatchW)
  ∧ InitializeAndValidate (GetGenesis infoW) storeMatchW = (none, storeMatchW)
  ∧ InitializeAndValidate (GetGenesis infoW) storeEmptyW
      = (none, putBlockHeader storeEmptyW (headerHash (GetGenesis infoW).header)
          (GetGenesis infoW).header (GetGenesis infoW).header.Difficulty true) := by
  refine ⟨?_, ?_, ?_⟩
  · exact (c1_initialize_and_validate infoW storeMismatchW).1 99 blockShard7W 7
      (by decide) (by decide) (by decide) (by decide)
  · exact (c1_initialize_and_validate infoW storeMatchW).2.1 [] rfl rfl
  · exact (c1_initialize_and_validate infoW storeEmptyW).2.2 rfl

/-- Claim C10: genesis extra-data round-trip.  The genesis block built
by GetGenesis has height 0, and getGenesisExtraData applied to it
succeeds, returning exactly the configured shard number. -/
theorem c10_genesis_extra_data_roundtrip (info : GenesisInfo) :
    (GetGenesis info).header.Height = 0
  ∧ getGenesisExtraData (genesisBlock (GetGenesis info)) = some info.ShardNumber := by
  constructor
  · rw [GetGenesis_header_height]; rfl
  · simp only [getGenesisExtraData, genesisBlock, GetGenesis_header_height,
      GetGenesis_header_extra, serializeExtraData, deserializeExtraData]
    simp [genesisBlockHeight]

end GenesisM

namespace MinerM

/-- Claim C3 counterexample: a reachable miner state (reached from the
initial state by one DownloaderDone event, which the synchroniser fires
at the end of every round, including rounds that needed no download)
in which a subsequent DownloaderStart event neither clears canStart nor
stops the in-progress mining: the callback leaves the state unchanged,
because isFirstDownloader has been cleared. -/
theorem c3_counterexample :
    minerAfterFirstDone.mining = true
  ∧ minerAfterFirstDone.canStart = true
  ∧ downloaderEventCallback minerAfterFirstDone DLEvent.start true
      = minerAfterFirstDone := by
  decide

/-- Claim C3 (amended): receipt of a DownloaderStart event sets canStart
to false and stops mining if mining is in progress, but only while
isFirstDownloader is still set, that is, before the first
DownloaderDone or DownloaderFailed event has been handled; afterwards
every DownloaderStart event leaves the miner state unchanged. -/
theorem c3_downloader_start_first_round (s : MinerState) (lo : Bool) :
    (s.isFirstDownloader = true →
       (downloaderEventCallback s DLEvent.start lo).canStart = false
     ∧ (downloaderEventCallback s DLEvent.start lo).mining = false)
  ∧ (s.isFirstDownloader = false →
       downloaderEventCallback s DLEvent.start lo = s) := by
  obtain ⟨m, c, st, fd, sc⟩ := s
  cases fd <;> cases m <;> simp [downloaderEventCallback, stopMining]

theorem c3_witness :
    ((downloaderEventCallback ⟨true, true, false, true, true⟩ DLEvent.start true).canStart = false
   ∧ (downloaderEventCallback ⟨true, true, false, true, true⟩ DLEvent.start true).mining = false)
  ∧ downloaderEventCallback ⟨true, true, false, false, true⟩ DLEvent.start true
      = ⟨true, true, false, false, true⟩ :=
  ⟨(c3_downloader_start_first_round ⟨true, true, false, true, true⟩ true).1 rfl,
   (c3_downloader_start_first_round ⟨true, true, false, false, true⟩ true).2 rfl⟩

/-- Claim C4 counterexample: with head height 10 (above the threshold 4)
the claim asserts that each of the heights 7, 8, 9 = 10 - 1 is a
possible choice; but rand.Intn(longDist - shortDist) only draws r < 2,
and no such r yields height 9, while 7 and 8 are both reached. -/
theorem c4_counterexample :
    (∀ r, r < longDist - shortDist → miningKeyHeight 10 r ≠ 9)
  ∧ miningKeyHeight 10 0 = 7
  ∧ miningKeyHeight 10 1 = 8 := by
  decide

/-- Claim C4 (amended): for a chain whose head height h exceeds the
threshold 4, getMiningKey samples the height uniformly from the two
values h - longDist and h - longDist + 1 (that is, h - 3 and h - 2;
the value h - shortDist = h - 1 is never drawn), and records that
height together with the transaction at the sampled index of the
chosen block body. -/
theorem c4_mining_key_window (ch : ChainView) (r1 r2 : Nat)
    (hh : ch.headHeight > StartHeightOfGetMiningKeyFromChain)
    (hr1 : r1 < longDist - shortDist) :
    getMiningKeyChain ch r1 r2
      = some (miningKeyHeight ch.headHeight r1,
              (ch.txsAt (miningKeyHeight ch.headHeight r1)).getD r2 0)
  ∧ (miningKeyHeight ch.headHeight r1 = ch.headHeight - 3
     ∨ miningKeyHeight ch.headHeight r1 = ch.headHeight - 2)
  ∧ miningKeyHeight ch.headHeight 0 = ch.headHeight - 3
  ∧ miningKeyHeight ch.headHeight 1 = ch.headHeight - 2 := by
  refine ⟨?_, ?_, ?_, ?_⟩
  · simp only [getMiningKeyChain]
    rw [if_pos hh]
  · simp only [miningKeyHeight, longDist, shortDist] at *
    simp only [StartHeightOfGetMiningKeyFromChain] at hh
    omega
  · simp only [miningKeyHeight, longDist]
    simp only [StartHeightOfGetMiningKeyFromChain] at hh
    omega
  · simp only [miningKeyHeight, longDist]
    simp only [StartHeightOfGetMiningKeyFromChain] at hh
    omega

/-- A concrete chain view for the C4 witness: head height 10, every
block body holding two transactions. -/
def chainViewW : ChainView :=
  { headHeight := 10, txsAt := fun _ => [100, 200] }

theorem c4_witness :
    getMiningKeyChain chainViewW 1 0
      = some (miningKeyHeight chainViewW.headHeight 1,
              (chainViewW.txsAt (miningKeyHeight chainViewW.headHeight 1)).getD 0 0)
  ∧ (miningKeyHeight chainViewW.headHeight 1 = chainViewW.headHeight - 3
     ∨ miningKeyHeight chainViewW.headHeight 1 = chainViewW.headHeight - 2)
  ∧ miningKeyHeight chainViewW.headHeight 0 = chainViewW.headHeight - 3
  ∧ miningKeyHeight chainViewW.headHeight 1 = chainViewW.headHeight - 2 :=
  c4_mining_key_window chainViewW 1 0 (by decide) (by decide)

/-- Claim C5, the code evaluated at the failing input: with min = 0,
max = 3, seed = 1 and no nonce satisfying the target, the nonce loop
exits reporting an outage after visiting only the nonces 1, 2, 3 — the
nonce 0 = min lies in the range but is never tested, because after the
wrap from max the reset nonce immediately equals seed - 1. -/
theorem c5_nonce_search_skips_min :
    StartMiningForKey (fun _ => false) 0 3 1 8
      = (KeyMineOutcome.outage, [1, 2, 3])
  ∧ 0 ∉ (StartMiningForKey (fun _ => false) 0 3 1 8).2 := by
  decide

end MinerM

namespace ServiceM

/-- Claim C8 counterexample: from a freshly started service the first
Stop completes, and the second Stop call panics (modelled as none) on
re-closing the already-closed protocol quit channel — Stop is not safe
to call a second time. -/
theorem c8_counterexample :
    (serviceStop serviceInit).isSome = true
  ∧ (serviceStop serviceInit).bind serviceStop = none := by
  decide

/-- Claim C8 (amended): Stop is not idempotent.  From any state with
both protocol channels still open, the first Stop call succeeds and
closes each chain database and the account-state database exactly once;
a second Stop call panics on closing the already-closed quit channel,
before reaching any database close, so across both calls each database
is still closed exactly once. -/
theorem c8_stop_not_idempotent (s : ServiceState)
    (h1 : s.quitChClosed = false) (h2 : s.syncChClosed = false) :
    serviceStop s
      = some { quitChClosed := true
               syncChClosed := true
               chainDBCloses := s.chainDBCloses.map (· + 1)
               accountDBCloses := s.accountDBCloses + 1 }
  ∧ (serviceStop s).bind serviceStop = none := by
  constructor
  · simp [serviceStop, protocolStop, h1, h2]
  · simp [serviceStop, protocolStop, h1, h2]

theorem c8_witness :
    serviceStop serviceInit
      = some { quitChClosed := true
               syncChClosed := true
               chainDBCloses := serviceInit.chainDBCloses.map (· + 1)
               accountDBCloses := serviceInit.accountDBCloses + 1 }
  ∧ (serviceStop serviceInit).bind serviceStop = none :=
  c8_stop_not_idempotent serviceInit rfl rfl

end ServiceM

namespace MinerM

/-- Claim C6: starting the miner during a sync fails cleanly.  For every
miner state with the mining flag clear and the canStart flag clear (a
sync in progress), Miner.Start returns ErrNodeIsSyncing and returns the
state unchanged, whatever the mining-loop outcome would have been. -/
theorem c6_start_while_syncing (s : MinerState) (lo : Bool)
    (h1 : s.mining = false) (h2 : s.canStart = false) :
    minerStart s lo = (StartResult.errNodeIsSyncing, s) := by
  simp [minerStart, h1, h2]

theorem c6_witness :
    minerStart ⟨false, false, false, true, false⟩ true
      = (StartResult.errNodeIsSyncing, ⟨false, false, false, true, false⟩) :=
  c6_start_while_syncing ⟨false, false, false, true, false⟩ true rfl rfl

end MinerM

namespace MonitorM

lemma monitor_fold (events : List Hash) :
    ∀ (init : Hash) (acc : List (Hash × Hash)), init ≠ EmptyHash →
    (∀ e ∈ events, e ≠ EmptyHash) →
    ∃ last, last ≠ EmptyHash ∧
      events.foldl monitorStep { lastHeader := init, handled := acc, alive := true }
        = { lastHeader := last, handled := acc ++ headerPairs init events, alive := true } := by
  induction events with
  | nil =>
    intro init acc hinit _
    exact ⟨init, hinit, by simp [headerPairs]⟩
  | cons h t ih =>
    intro init acc hinit hall
    have hh : h ≠ EmptyHash := hall h (List.mem_cons_self h t)
    have ht : ∀ e ∈ t, e ≠ EmptyHash := fun e he => hall e (List.mem_cons_of_mem h he)
    have hstep : monitorStep { lastHeader := init, handled := acc, alive := true } h
        = { lastHeader := h, handled := acc ++ [(h, init)], alive := true } := by
      simp [monitorStep, hinit]
    obtain ⟨last, hlast, hfold⟩ := ih h (acc ++ [(h, init)]) hh ht
    refine ⟨last, hlast, ?_⟩
    rw [List.foldl_cons, hstep, hfold]
    simp [headerPairs]

/-- Claim C7: chain-head events reach the pools in order, forever.  For
every chain c and every sequence of ChainHeaderChanged events, the
events delivered on the channel of c (all non-empty ones fired for c,
in firing order) are each handed to the transaction pool and the debt
pool of c paired with the previously recorded head, in insertion order,
and the monitor goroutine stays alive through the whole sequence.  The
hypothesis that the initially recorded head is non-empty is established
by initPool, which records the head hash of the freshly initialized
chain store. -/
theorem c7_monitor_header_order (c : Nat) (init : Hash)
    (msgs : List ChainHeaderChangedMsg) (hinit : init ≠ EmptyHash) :
    (MonitorChainHeaderChange init (chainHeaderChangedDeliver c msgs)).handled
      = headerPairs init (chainHeaderChangedDeliver c msgs)
  ∧ (MonitorChainHeaderChange init (chainHeaderChangedDeliver c msgs)).alive = true := by
  have hall : ∀ e ∈ chainHeaderChangedDeliver c msgs, e ≠ EmptyHash := by
    intro e he
    simp only [chainHeaderChangedDeliver, List.mem_map, List.mem_filter,
      Bool.and_eq_true, bne_iff_ne, ne_eq, beq_iff_eq] at he
    obtain ⟨m, ⟨_, hne, _⟩, hm⟩ := he
    rw [← hm]
    exact hne
  obtain ⟨last, _, hfold⟩ :=
    monitor_fold (chainHeaderChangedDeliver c msgs) init [] hinit hall
  unfold MonitorChainHeaderChange
  rw [hfold]
  simp

/-- Concrete events for the C7 witness: the event with empty hash is
dropped before the channel, the event for chain 1 goes to the other
channel; chain 0 receives 7 then 8. -/
def msgsW : List ChainHeaderChangedMsg :=
  [ { HeaderHash := 7, ChainNum := 0 }
  , { HeaderHash := 0, ChainNum := 0 }
  , { HeaderHash := 9, ChainNum := 1 }
  , { HeaderHash := 8, ChainNum := 0 } ]

theorem c7_witness :
    (MonitorChainHeaderChange 5 (chainHeaderChangedDeliver 0 msgsW)).handled
      = headerPairs 5 (chainHeaderChangedDeliver 0 msgsW)
  ∧ (MonitorChainHeaderChange 5 (chainHeaderChangedDeliver 0 msgsW)).alive = true :=
  c7_monitor_header_order 0 5 msgsW (by decide)

end MonitorM

namespace SyncM

lemma syncLoop_char (localTD : Nat → Option Int) (dlOk : Nat → Bool) :
    ∀ (l : List (Option BestPeerForEachChain)) (i : Nat),
    (∀ k bp, l[k]? = some (some bp) → bp.chainNum = i + k) →
    ∀ c, (SyncAction.fireStart c ∈ syncLoop localTD dlOk i l
          ∨ SyncAction.download c ∈ syncLoop localTD dlOk i l) →
    ∃ k bp ltd, l[k]? = some (some bp) ∧ c = i + k
      ∧ localTD c = some ltd ∧ ltd < bp.peerTD := by
  intro l
  induction l with
  | nil =>
    intro i _ c hc
    simp [syncLoop] at hc
  | cons hd t ih =>
    intro i hidx c hc
    cases hd with
    | none =>
      have hidx2 : ∀ k bp, t[k]? = some (some bp) → bp.chainNum = (i + 1) + k := by
        intro k bp hk
        have := hidx (k + 1) bp (by simpa using hk)
        omega
      have hc2 : SyncAction.fireStart c ∈ syncLoop localTD dlOk (i + 1) t
          ∨ SyncAction.download c ∈ syncLoop localTD dlOk (i + 1) t := by
        simpa [syncLoop] using hc
      obtain ⟨k, bp, ltd, h1, h2, h3, h4⟩ := ih (i + 1) hidx2 c hc2
      exact ⟨k + 1, bp, ltd, by simpa using h1, by omega, h3, h4⟩
    | some bp0 =>
      have hbp0 : bp0.chainNum = i := by
        have := hidx 0 bp0 (by simp)
        omega
      cases hl : localTD i with
      | none =>
        simp only [syncLoop, hl] at hc
        simp at hc
      | some ltd0 =>
        simp only [syncLoop, hl] at hc
        by_cases hle : bp0.peerTD ≤ ltd0
        · rw [if_pos hle] at hc
          have hidx2 : ∀ k bp, t[k]? = some (some bp) → bp.chainNum = (i + 1) + k := by
            intro k bp hk
            have := hidx (k + 1) bp (by simpa using hk)
            omega
          obtain ⟨k, bp, ltd, h1, h2, h3, h4⟩ := ih (i + 1) hidx2 c hc
          exact ⟨k + 1, bp, ltd, by simpa using h1, by omega, h3, h4⟩
        · rw [if_neg hle] at hc
          have hred : c = bp0.chainNum
              ∨ (SyncAction.fireStart c ∈ syncLoop localTD dlOk (i + 1) t
                 ∨ SyncAction.download c ∈ syncLoop localTD dlOk (i + 1) t) := by
            rcases hc with hc | hc
            · simp only [List.mem_cons] at hc
              rcases hc with h | h | h
              · left; simpa using h
              · simp at h
              · by_cases hdl : dlOk bp0.chainNum
                · rw [if_pos hdl] at h
                  simp only [List.mem_cons] at h
                  rcases h with h | h
                  · simp at h
                  · right; exact Or.inl h
                · rw [if_neg hdl] at h
                  simp at h
            · simp only [List.mem_cons] at hc
              rcases hc with h | h | h
              · simp at h
              · left; simpa using h
              · by_cases hdl : dlOk bp0.chainNum
                · rw [if_pos hdl] at h
                  simp only [List.mem_cons] at h
                  rcases h with h | h
                  · simp at h
                  · right; exact Or.inr h
                · rw [if_neg hdl] at h
                  simp at h
          rcases hred with h | h
          · refine ⟨0, bp0, ltd0, by simp, by omega, ?_, by omega⟩
            rw [h, hbp0]
            exact hl
          · have hidx2 : ∀ k bp, t[k]? = some (some bp) → bp.chainNum = (i + 1) + k := by
              intro k bp hk
              have := hidx (k + 1) bp (by simpa using hk)
              omega
            obtain ⟨k, bp, ltd, h1, h2, h3, h4⟩ := ih (i + 1) hidx2 c h
            exact ⟨k + 1, bp, ltd, by simpa using h1, by omega, h3, h4⟩

/-- Claim C9: synchroniser skip condition.  Given the per-chain best
peers (entry k of the bestPeer slice is for chain k), every chain c
whose best peer reports a total difficulty at most the local one is
skipped — the round fires no DownloaderStart in the iteration of c and
attempts no download for c; and every attempted download for a chain c
happens only when the peer total difficulty is strictly greater than
the local one. -/
theorem c9_sync_skip (localTD : Nat → Option Int) (dlOk : Nat → Bool)
    (bps : List (Option BestPeerForEachChain))
    (hidx : ∀ k (bp : BestPeerForEachChain),
      bps[k]? = some (some bp) → bp.chainNum = k) :
    (∀ c (bp : BestPeerForEachChain) (ltd : Int),
        bps[c]? = some (some bp) → localTD c = some ltd →
        bp.peerTD ≤ ltd →
        SyncAction.fireStart c ∉ synchronise localTD dlOk (some bps)
      ∧ SyncAction.download c ∉ synchronise localTD dlOk (some bps))
  ∧ (∀ c, SyncAction.download c ∈ synchronise localTD dlOk (some bps) →
      ∃ (bp : BestPeerForEachChain) (ltd : Int),
        bps[c]? = some (some bp) ∧ localTD c = some ltd
        ∧ ltd < bp.peerTD) := by
  have hidx0 : ∀ k (bp : BestPeerForEachChain),
      bps[k]? = some (some bp) → bp.chainNum = 0 + k := by
    intro k bp hk
    have := hidx k bp hk
    omega
  have key : ∀ c (bp : BestPeerForEachChain) (ltd : Int),
      bps[c]? = some (some bp) → localTD c = some ltd →
      bp.peerTD ≤ ltd →
      (SyncAction.fireStart c ∈ syncLoop localTD dlOk 0 bps
       ∨ SyncAction.download c ∈ syncLoop localTD dlOk 0 bps) → False := by
    intro c bp ltd hc hltd hle hmem
    obtain ⟨k, bp2, ltd2, h1, h2, h3, h4⟩ :=
      syncLoop_char localTD dlOk bps 0 hidx0 c hmem
    have hk : k = c := by omega
    rw [hk, hc] at h1
    injection h1 with h1
    injection h1 with h1
    rw [hltd] at h3
    injection h3 with h3
    rw [← h1] at h4
    rw [← h3] at h4
    omega
  constructor
  · intro c bp ltd hc hltd hle
    exact ⟨fun hmem => key c bp ltd hc hltd hle (Or.inl hmem),
           fun hmem => key c bp ltd hc hltd hle (Or.inr hmem)⟩
  · intro c hmem
    obtain ⟨k, bp, ltd, h1, h2, h3, h4⟩ :=
      syncLoop_char localTD dlOk bps 0 hidx0 c (Or.inr hmem)
    have hk : k = c := by omega
    rw [hk] at h1
    exact ⟨bp, ltd, h1, h3, h4⟩

/-- Local total difficulties for the C9 witness: chain 0 holds TD 10. -/
def localTDW : Nat → Option Int := fun i => if i = 0 then some 10 else none

def dlOkW : Nat → Bool := fun _ => true

/-- One best peer, for chain 0, reporting TD 10 — not above the local
TD, so chain 0 must be skipped. -/
def bpsW : List (Option BestPeerForEachChain) :=
  [some { chainNum := 0, peerTD := 10 }]

theorem c9_witness :
    SyncAction.fireStart 0 ∉ synchronise localTDW dlOkW (some bpsW)
  ∧ SyncAction.download 0 ∉ synchronise localTDW dlOkW (some bpsW) := by
  have hidx : ∀ k (bp : BestPeerForEachChain),
      bpsW[k]? = some (some bp) → bp.chainNum = k := by
    intro k bp h
    match k with
    | 0 =>
      simp [bpsW] at h
      rw [← h]
    | n + 1 =>
      simp [bpsW] at h
  exact (c9_sync_skip localTDW dlOkW bpsW hidx).1 0
    { chainNum := 0, peerTD := 10 } 10 (by decide) rfl (by decide)

end SyncM

namespace ProtoM

lemma handleTxList_mem (localShard : Nat) :
    ∀ (l : List TransactionMsg) (peer : Peer) (tm : TransactionMsg),
      tm ∈ l → tm.Tx.fromAddr.shard = localShard →
      Effect.txPoolAddTransaction tm.ChainNum tm.Tx
        ∈ (handleTxList localShard peer l).2 := by
  intro l
  induction l with
  | nil =>
    intro peer tm hmem
    simp at hmem
  | cons hd t ih =>
    intro peer tm hmem hshard
    rcases List.mem_cons.mp hmem with h | h
    · subst h
      simp only [handleTxList]
      rw [if_neg (by rw [hshard]; simp)]
      exact List.mem_cons_self _ _
    · simp only [handleTxList]
      exact List.mem_cons_of_mem _
        (ih { peer with knownTxs := hd.Tx.hash :: peer.knownTxs } tm h hshard)

/-- Claim C2: cross-shard message filtering.  For a peer whose shard
differs from the local shard number, every message whose code is
neither Transactions (2) nor Debts (13) leaves the peer state unchanged
and produces no effect at all (no pool, chain, or known-set change, no
outbound send); while a well-formed Transactions message from the same
peer still leads to an admission attempt into the local transaction
pool for every carried transaction whose sender shard is local. -/
theorem c2_cross_shard_filter (env : Env) (localShard : Nat) (peer : Peer)
    (msg : HMsg) (hshard : peer.shard ≠ localShard) :
    (msg.Code ≠ transactionsMsgCode → msg.Code ≠ debtMsgCode →
       handleMsgStep env localShard peer msg = (peer, []))
  ∧ (∀ (l : List TransactionMsg) (tm : TransactionMsg),
       msg.Code = transactionsMsgCode → msg.Payload = Payload.txs l →
       tm ∈ l → tm.Tx.fromAddr.shard = localShard →
       Effect.txPoolAddTransaction tm.ChainNum tm.Tx
         ∈ (handleMsgStep env localShard peer msg).2) := by
  constructor
  · intro h1 h2
    simp only [handleMsgStep]
    rw [if_pos ⟨hshard, h1, h2⟩]
  · intro l tm hcode hpayload hmem htm
    have hstep : handleMsgStep env localShard peer msg
        = handleTxList localShard peer l := by
      simp only [handleMsgStep]
      rw [if_neg (by simp [hcode])]
      simp only [dispatchMsg, hcode, hpayload, transactionHashMsgCode,
        transactionRequestMsgCode, transactionsMsgCode]
      simp
    rw [hstep]
    exact handleTxList_mem localShard l peer tm hmem htm

def envW : Env :=
  { txPoolGetTransaction := fun _ _ => none
    storeGetBlock := fun _ _ => none
    storeGetBlockHash := fun _ _ => none
    storeGetBlockHeader := fun _ _ => none
    currentBlockHeight := fun _ => 0 }

/-- A peer on shard 2, while the local shard is 1. -/
def peerW : Peer :=
  { shard := 2, knownTxs := [], knownBlocks := [], knownDebts := [], heads := [] }

/-- A BlockHash announcement from the cross-shard peer. -/
def msgBlockHashW : HMsg :=
  { Code := blockHashMsgCode
    Payload := Payload.blockHash { BlockHash := 77, ChainNum := 0 } }

/-- A transaction whose sender lives on the local shard 1. -/
def tmW : TransactionMsg :=
  { Tx := { hash := 500, fromAddr := { shard := 1, ident := 9 } }, ChainNum := 2 }

/-- A Transactions message from the cross-shard peer carrying tmW. -/
def msgTxsW : HMsg :=
  { Code := transactionsMsgCode, Payload := Payload.txs [tmW] }

theorem c2_witness :
    handleMsgStep envW 1 peerW msgBlockHashW = (peerW, [])
  ∧ Effect.txPoolAddTransaction tmW.ChainNum tmW.Tx
      ∈ (handleMsgStep envW 1 peerW msgTxsW).2 := by
  constructor
  · exact (c2_cross_shard_filter envW 1 peerW msgBlockHashW (by decide)).1
      (by decide) (by decide)
  · exact (c2_cross_shard_filter envW 1 peerW msgTxsW (by decide)).2
      [tmW] tmW rfl rfl (List.mem_singleton.mpr rfl) rfl

end ProtoM
